import Mathlib

/-! Verification development for the arqut-edge-ce edge agent.  The Go
functions relevant to the checked claims (service catalog operations, the
sync coordinator, the signaling reconnect backoff, WireGuard peer
registration and the WebRTC bind) are shallowly embedded as executable
Lean definitions, and the claimed properties are stated and settled as
theorems about those definitions. -/

deriving instance DecidableEq for Except

/-! ## String constants from the source -/

def msgTypeServiceSync : String := "service-sync"

def msgTypeServiceSyncBatch : String := "service-sync-batch"

def protoHTTP : String := "http"

def protoWebsocket : String := "websocket"

def opCreated : String := "created"

def opUpdated : String := "updated"

def opDeleted : String := "deleted"

def opBatchSync : String := "batch-sync"

def opSync : String := "sync"

def errNoFields : String := "no fields to update"

def errNameEmpty : String := "service name cannot be empty"

def errHostEmpty : String := "local host cannot be empty"

def errGetService : String := "failed to get service: record not found"

def errUnsupportedProtocol (p : String) : String :=
  "unsupported protocol: " ++ p ++ " (supported: http, websocket)"

def errInvalidLocalPort (p : Int) : String :=
  "invalid local port: " ++ toString p

def errNoPorts (lo hi : Nat) : String :=
  "no available ports in range " ++ toString lo ++ "-" ++ toString hi

/-! ## Storage model (pkg/storage/models.go) -/

/-- Embeds `storage.ProxyService`: one row of the `proxy_services` table. -/
structure ProxyService where
  id : String
  name : String
  tunnelPort : Nat
  localHost : String
  localPort : Int
  protocol : String
  enabled : Bool
deriving DecidableEq, Repr

/-- Embeds `storage.ProxyServiceConfig`: the partial-update payload, where
an absent field means "leave unchanged". -/
structure ProxyServiceConfig where
  name : Option String
  localHost : Option String
  localPort : Option Int
  enabled : Option Bool
deriving DecidableEq, Repr

/-! ## Association-list helpers modelling Go map operations -/

def lookupKey {α : Type} (k : String) : List (String × α) → Option α
  | [] => none
  | (k2, v) :: rest => if k2 = k then some v else lookupKey k rest

def eraseKey {α : Type} (k : String) (l : List (String × α)) : List (String × α) :=
  l.filter (fun p => !(p.1 == k))

/-- Go map assignment `m[k] = v`: binds `k` to `v`, replacing any previous
binding. -/
def insertKey {α : Type} (k : String) (v : α) (l : List (String × α)) :
    List (String × α) :=
  (k, v) :: eraseKey k l

/-! ## Sync coordinator data (pkg/providers/proxy/proxy.go) -/

/-- Embeds `SyncCallback`: a pending sync operation tracked by message id. -/
structure SyncCallback where
  operation : String
  serviceID : String
  timestamp : Nat
  retryCount : Nat
deriving DecidableEq, Repr

/-- The JSON payload of an outbound sync message, with `Option` recording
which keys are present in the `data` map the Go code builds. -/
structure OutboundMsg where
  type : String
  messageId : String
  operation : Option String
  service : Option ProxyService
  services : Option (List ProxyService)
deriving DecidableEq, Repr

/-- State of the outbound channel as observed by a single non-blocking
`select` send: not configured (`nil`), has capacity, or full. -/
inductive ChanState where
  | unset
  | free
  | full
deriving DecidableEq, Repr

/-- Observable events of one catalog/sync operation, in program order. -/
inductive SyncEv where
  | register (id : String) (cb : SyncCallback)
  | attempt (msg : OutboundMsg)
  | sent (msg : OutboundMsg)
  | dropped (id : String)
deriving DecidableEq, Repr

def SyncEv.isAttempt : SyncEv → Bool
  | .attempt _ => true
  | _ => false

/-- The messages actually handed to the outbound channel in a trace. -/
def sentMsgs (evs : List SyncEv) : List OutboundMsg :=
  evs.filterMap (fun e => match e with | .sent m => some m | _ => none)

/-- The number of enqueue attempts (non-blocking `select` sends) in a trace. -/
def attemptCount (evs : List SyncEv) : Nat :=
  (evs.filter SyncEv.isAttempt).length

/-! ## Proxy provider state -/

/-- The parts of `ProxyProvider` state the claims touch.  The catalog list
embeds the `proxy_services` table; `servers` holds the listener keys
`"{service.id}-{addr}"`; `syncCallbacks` is the pending-sync map. -/
structure ProxyState where
  catalog : List ProxyService
  started : Bool
  portStart : Nat
  portStop : Nat
  interfaces : List (String × String)
  servers : List String
  syncChan : ChanState
  syncCallbacks : List (String × SyncCallback)
deriving DecidableEq, Repr

/-- Embeds `NewProxyProvider`: fresh provider with the default tunnel-port
range 8000..9000 and no sync channel configured. -/
def NewProxyProvider : ProxyState where
  catalog := []
  started := false
  portStart := 8000
  portStop := 9000
  interfaces := []
  servers := []
  syncChan := ChanState.unset
  syncCallbacks := []

/-! ## Sync operations (pkg/providers/proxy/proxy.go) -/

/-- Embeds `syncServiceOperation`: register a `SyncCallback` under a fresh
message id, then attempt a non-blocking enqueue of a `service-sync`
message; on a full channel the callback is deleted again and the message
dropped.  With no channel configured nothing happens. -/
def syncServiceOperation (st : ProxyState) (freshId : String) (operation : String)
    (service : ProxyService) (now : Nat) : ProxyState × List SyncEv :=
  match st.syncChan with
  | ChanState.unset => (st, [])
  | ChanState.free =>
    let cb : SyncCallback := ⟨operation, service.id, now, 0⟩
    let msg : OutboundMsg := ⟨msgTypeServiceSync, freshId, some operation, some service, none⟩
    ({ st with syncCallbacks := insertKey freshId cb st.syncCallbacks },
     [SyncEv.register freshId cb, SyncEv.attempt msg, SyncEv.sent msg])
  | ChanState.full =>
    let cb : SyncCallback := ⟨operation, service.id, now, 0⟩
    let msg : OutboundMsg := ⟨msgTypeServiceSync, freshId, some operation, some service, none⟩
    ({ st with syncCallbacks := eraseKey freshId (insertKey freshId cb st.syncCallbacks) },
     [SyncEv.register freshId cb, SyncEv.attempt msg, SyncEv.dropped freshId])

/-- Insertion step for the name ordering `GetServices` applies
(`Order("name")`). -/
def insertByName (s : ProxyService) : List ProxyService → List ProxyService
  | [] => [s]
  | t :: ts => if s.name ≤ t.name then s :: t :: ts else t :: insertByName s ts

/-- Sort of the catalog by service name, modelling the SQL `ORDER BY name`
of `GetServices`. -/
def sortByName : List ProxyService → List ProxyService
  | [] => []
  | s :: ss => insertByName s (sortByName ss)

/-- Embeds `GetServices`: all rows, ordered by name. -/
def GetServices (st : ProxyState) : List ProxyService :=
  sortByName st.catalog

/-- Embeds `GetService`: `First` on `id = ?`. -/
def GetService (st : ProxyState) (id : String) : Option ProxyService :=
  st.catalog.find? (fun s => s.id == id)

/-- Embeds `syncAllServices`: with a configured channel and a non-empty
catalog, register one batch callback and attempt one non-blocking enqueue
of a `service-sync-batch` whose `data` map holds only `message_id` and
`services` (every service, ordered by name); otherwise do nothing. -/
def syncAllServices (st : ProxyState) (freshId : String) (now : Nat) :
    ProxyState × List SyncEv :=
  if st.syncChan = ChanState.unset then (st, [])
  else
    let services := GetServices st
    if services.length = 0 then (st, [])
    else
      let cb : SyncCallback := ⟨opBatchSync, toString services.length ++ " services", now, 0⟩
      let msg : OutboundMsg := ⟨msgTypeServiceSyncBatch, freshId, none, none, some services⟩
      if st.syncChan = ChanState.free then
        ({ st with syncCallbacks := insertKey freshId cb st.syncCallbacks },
         [SyncEv.register freshId cb, SyncEv.attempt msg, SyncEv.sent msg])
      else
        ({ st with syncCallbacks := eraseKey freshId (insertKey freshId cb st.syncCallbacks) },
         [SyncEv.register freshId cb, SyncEv.attempt msg, SyncEv.dropped freshId])

/-- Embeds `OnReconnect`: the on-connect handler the sync coordinator
registers with the signaling client; it just runs `syncAllServices`. -/
def OnReconnect (st : ProxyState) (freshId : String) (now : Nat) :
    ProxyState × List SyncEv :=
  syncAllServices st freshId now

/-- The fields of a `service-sync-ack` payload the handler reads (a missing
`message_id` key yields the empty string, as the Go type assertion does). -/
structure AckData where
  status : String
  message : String
  messageId : String
  errorMsg : String
deriving DecidableEq, Repr

/-- Embeds `HandleServiceSyncAck`: look up the callback for the ack's
message id and remove it (whether the ack reports success or error). -/
def HandleServiceSyncAck (st : ProxyState) (ack : AckData) : ProxyState :=
  { st with syncCallbacks := eraseKey ack.messageId st.syncCallbacks }

/-! ## Port allocation (allocatePort) -/

/-- Tunnel ports already stored on some row (`Pluck("tunnel_port")`). -/
def usedTunnelPorts (catalog : List ProxyService) : List Nat :=
  catalog.map (fun s => s.tunnelPort)

/-- The body of the ascending scan of `allocatePort`, recursing on the
number of loop iterations left: try each port starting at `port`, skipping
used ones, returning the first for which the probe TCP bind (`sysFree`)
succeeds. -/
def scanPorts (used : List Nat) (sysFree : Nat → Bool) : Nat → Nat → Option Nat
  | _, 0 => none
  | port, fuel + 1 =>
    if !(used.contains port) && sysFree port then some port
    else scanPorts used sysFree (port + 1) fuel

/-- The ascending scan `for port := start; port <= stop; port++`, which
executes exactly `stop + 1 - start` iterations. -/
def allocatePortFrom (used : List Nat) (sysFree : Nat → Bool) (port stop : Nat) :
    Option Nat :=
  scanPorts used sysFree port (stop + 1 - port)

/-- Embeds `allocatePort`: walk the configured range in ascending order and
return the first free port, or the exhaustion error. -/
def allocatePort (st : ProxyState) (sysFree : Nat → Bool) : Except String Nat :=
  match allocatePortFrom (usedTunnelPorts st.catalog) sysFree st.portStart st.portStop with
  | some p => Except.ok p
  | none => Except.error (errNoPorts st.portStart st.portStop)

/-! ## Listener bookkeeping (startService / stopService / restartService) -/

/-- Listener keys `"{service.id}-{ip}:{tunnel_port}"` that `startService`
inserts, one per registered interface. -/
def startKeys (interfaces : List (String × String)) (s : ProxyService) : List String :=
  interfaces.map (fun p => s.id ++ "-" ++ p.2 ++ ":" ++ toString s.tunnelPort)

/-- Whether a listener key belongs to service `id`
(`strings.HasPrefix(key, id+"-")`). -/
def keyOfService (id key : String) : Bool :=
  (key.take (id ++ "-").length) == (id ++ "-")

/-- Embeds `stopService`: delete every listener key of the service. -/
def stopService (st : ProxyState) (id : String) : ProxyState :=
  { st with servers := st.servers.filter (fun k => !(keyOfService id k)) }

/-- Embeds `restartService`: stop the service's listeners; if the row still
exists, is enabled and the proxy is running, start them again. -/
def restartService (st : ProxyState) (id : String) : ProxyState :=
  let st1 := stopService st id
  match GetService st1 id with
  | none => st1
  | some s =>
    if s.enabled && st1.started then
      { st1 with servers := st1.servers ++ startKeys st1.interfaces s }
    else st1

/-! ## Catalog mutations (AddService / ModifyService / DeleteService) -/

/-- Embeds `AddService`.  `sysFree` is the OS bind probe, `freshSvcId` and
`freshMsgId` the two `generateID()` results.  Validation happens before any
row is written; the row is inserted before listeners start and before the
sync enqueue attempt. -/
def AddService (st : ProxyState) (sysFree : Nat → Bool)
    (freshSvcId freshMsgId : String) (name localHost : String) (localPort : Int)
    (protocol : String) (now : Nat) :
    Except String ProxyService × ProxyState × List SyncEv :=
  if !(protocol == protoHTTP) && !(protocol == protoWebsocket) then
    (Except.error (errUnsupportedProtocol protocol), st, [])
  else if localPort < 1 ∨ localPort > 65535 then
    (Except.error (errInvalidLocalPort localPort), st, [])
  else if localHost = "" then
    (Except.error errHostEmpty, st, [])
  else if name = "" then
    (Except.error errNameEmpty, st, [])
  else
    match allocatePort st sysFree with
    | Except.error e => (Except.error ("failed to allocate port: " ++ e), st, [])
    | Except.ok tunnelPort =>
      let service : ProxyService :=
        ⟨freshSvcId, name, tunnelPort, localHost, localPort, protocol, true⟩
      let st1 := { st with catalog := st.catalog ++ [service] }
      let st2 :=
        if st1.started then
          { st1 with servers := st1.servers ++ startKeys st1.interfaces service }
        else st1
      let out := syncServiceOperation st2 freshMsgId opCreated service now
      (Except.ok service, out.1, out.2)

/-- Applies the GORM `Updates` map of `ModifyService` to one row. -/
def applyConfig (config : ProxyServiceConfig) (s : ProxyService) : ProxyService :=
  let s1 := match config.name with | some n => { s with name := n } | none => s
  let s2 := match config.localHost with | some h => { s1 with localHost := h } | none => s1
  let s3 := match config.localPort with | some p => { s2 with localPort := p } | none => s2
  match config.enabled with | some e => { s3 with enabled := e } | none => s3

/-- `true` when the optional string is present and empty. -/
def presentEmpty (o : Option String) : Bool :=
  match o with | some s => s == "" | none => false

/-- `true` when the optional port is present and out of 1..65535. -/
def presentBadPort (o : Option Int) : Bool :=
  match o with | some p => decide (p < 1 ∨ p > 65535) | none => false

/-- Embeds `ModifyService`: validate the present fields, refuse an empty
update, apply the update to every row matching the id (GORM `Updates`
reports no error when zero rows match), restart the service's listeners,
then fetch the row again and sync `updated` — silently skipping the sync
when the fetch fails. -/
def ModifyService (st : ProxyState) (freshMsgId : String) (id : String)
    (config : ProxyServiceConfig) (now : Nat) :
    Except String Unit × ProxyState × List SyncEv :=
  if presentEmpty config.name then (Except.error errNameEmpty, st, [])
  else if presentEmpty config.localHost then (Except.error errHostEmpty, st, [])
  else if presentBadPort config.localPort then
    (Except.error (errInvalidLocalPort (config.localPort.getD 0)), st, [])
  else if config.name = none ∧ config.localHost = none ∧ config.localPort = none
      ∧ config.enabled = none then
    (Except.error errNoFields, st, [])
  else
    let newCatalog := st.catalog.map (fun s => if s.id == id then applyConfig config s else s)
    let st1 := { st with catalog := newCatalog }
    let st2 := restartService st1 id
    match GetService st2 id with
    | none => (Except.ok (), st2, [])
    | some service =>
      let out := syncServiceOperation st2 freshMsgId opUpdated service now
      (Except.ok (), out.1, out.2)

/-- Embeds `EnableService`. -/
def EnableService (st : ProxyState) (freshMsgId : String) (id : String) (now : Nat) :
    Except String Unit × ProxyState × List SyncEv :=
  ModifyService st freshMsgId id ⟨none, none, none, some true⟩ now

/-- Embeds `DisableService`. -/
def DisableService (st : ProxyState) (freshMsgId : String) (id : String) (now : Nat) :
    Except String Unit × ProxyState × List SyncEv :=
  ModifyService st freshMsgId id ⟨none, none, none, some false⟩ now

/-- Embeds `DeleteService`: fetch the row (failing with a wrapped not-found
error), stop its listeners, delete the row, then sync `deleted`. -/
def DeleteService (st : ProxyState) (freshMsgId : String) (id : String) (now : Nat) :
    Except String Unit × ProxyState × List SyncEv :=
  match GetService st id with
  | none => (Except.error errGetService, st, [])
  | some service =>
    let st1 := stopService st id
    let st2 := { st1 with catalog := st1.catalog.filter (fun s => !(s.id == id)) }
    let out := syncServiceOperation st2 freshMsgId opDeleted service now
    (Except.ok (), out.1, out.2)

/-! ## Signaling reconnect backoff (unnamed signaling client, `reconnect`) -/

/-- The backoff update after one failed attempt: `backoff *= 2; if backoff
> maxBackoff { backoff = maxBackoff }` with `maxBackoff = 60` seconds. -/
def nextBackoff (b : Nat) : Nat :=
  min (2 * b) 60

/-- The wait (in seconds) before retry `n` within one `reconnect()` call.
The local variable starts at `1 * time.Second`, so every invocation of
`reconnect` — in particular the first one after a successful connection —
begins again at one second. -/
def backoffAt : Nat → Nat
  | 0 => 1
  | n + 1 => nextBackoff (backoffAt n)

/-! ## WireGuard manager peer registration (`handleConnectRequestInner`) -/

/-- Embeds the wire `PeerConfig` struct (all fields `omitempty`, so an
absent JSON field decodes to the Go zero value). -/
structure PeerConfig where
  index : Int
  id : String
  type : String
  accountId : String
  publicKey : String
  edgeIP : String
  clientIP : String
deriving DecidableEq, Repr

/-- The parts of the WireGuard `Manager` the registration path touches. -/
structure WGManager where
  id : String
  publicKey : String
  clientPeers : List (String × PeerConfig)
deriving DecidableEq, Repr

/-- One outbound signaling message sent by `sendSignalingMessageInternal`. -/
structure SignalSend where
  resType : String
  toPeer : String
  payload : PeerConfig
deriving DecidableEq, Repr

/-- The body of the scan of `findAvailableIndex`, recursing on the number
of loop iterations left: first index from `i` upward that is unused; when
the iterations run out (the loop bound `i < 255` fails) return `0`. -/
def scanIdx (used : List Int) : Nat → Nat → Int
  | _, 0 => 0
  | i, fuel + 1 =>
    if used.contains (Int.ofNat i) then scanIdx used (i + 1) fuel
    else Int.ofNat i

/-- The scan `for i := 0; i < 255; i++`, which executes exactly `255 - i`
iterations from position `i`. -/
def findAvailableIndexFrom (used : List Int) (i : Nat) : Int :=
  scanIdx used i (255 - i)

/-- The indices currently held by entries of the peer table. -/
def usedIndices (m : WGManager) : List Int :=
  m.clientPeers.map (fun p => p.2.index)

/-- Embeds `findAvailableIndex`: smallest `i ∈ [0, 255)` not used by any
peer-table entry, or `0` when every such `i` is used. -/
def findAvailableIndex (m : WGManager) : Int :=
  findAvailableIndexFrom (usedIndices m) 0

/-- Embeds `generateIP`: `10.0.<index>.2` for the client side and
`10.0.<index>.1` for the edge side. -/
def generateIP (index : Int) (isClient : Bool) : String :=
  if isClient then "10.0." ++ toString index ++ ".2"
  else "10.0." ++ toString index ++ ".1"

/-- Embeds `handleConnectRequestInner`.  `reqData` is the decoded message
payload (`copyStruct(msg.Data, peer)`).  For a known peer id the stored
index/ips are copied over; an index is allocated only when the resulting
`EdgeIP` is still empty; finally the table is updated and a response of
type `resType` is sent to the peer.  (For a known id the code also tears
down any existing WebRTC session, which touches only `wgConns` plus the
peer-table entry that is immediately re-inserted below.) -/
def handleConnectRequestInner (m : WGManager) (reqData : PeerConfig)
    (resType : String) : WGManager × SignalSend :=
  let peer1 :=
    match lookupKey reqData.id m.clientPeers with
    | some existing =>
      { reqData with index := existing.index, edgeIP := existing.edgeIP,
                     clientIP := existing.clientIP }
    | none => reqData
  let peer2 :=
    if peer1.edgeIP = "" then
      let idx := findAvailableIndex m
      { peer1 with index := idx, edgeIP := generateIP idx false,
                   clientIP := generateIP idx true }
    else peer1
  let m2 := { m with clientPeers := insertKey peer2.id peer2 m.clientPeers }
  (m2, ⟨resType, peer2.id,
        ⟨peer2.index, m.id, "edge", "", m.publicKey, peer2.edgeIP, peer2.clientIP⟩⟩)

/-! ## WebRTC bind send path (pkg/providers/wireguard/wrtc_bind.go) -/

/-- `webrtc.DataChannelState`, as far as `Send` inspects it. -/
inductive DCReadyState where
  | connecting
  | dcOpen
  | closing
  | dcClosed
deriving DecidableEq, Repr

def errBindClosed : String := "bind is closed"

/-- A data channel: its ready state plus an oracle giving the result of
`dc.Send` on each message (`none` = success). -/
structure DataChannel where
  readyState : DCReadyState
  sendResult : List Nat → Option String

/-- The fields of `WebRTCBind` that `Send` reads. -/
structure WebRTCBindSt where
  closedFlag : Bool
  dataChannel : Option DataChannel

/-- The write loop of `Send`: skip empty buffers, write each non-empty one
as its own data-channel message, stop at the first write error.  Returns
the result together with the successfully written messages in order. -/
def sendLoop (dc : DataChannel) : List (List Nat) → Except String Unit × List (List Nat)
  | [] => (Except.ok (), [])
  | d :: rest =>
    if d.length = 0 then sendLoop dc rest
    else
      match dc.sendResult d with
      | some e => (Except.error e, [])
      | none =>
        let out := sendLoop dc rest
        (out.1, d :: out.2)

/-- Embeds `WebRTCBind.Send`: fail with `ErrBindClosed` when the bind is
closed, the channel pointer is nil, or the channel is not `Open`; otherwise
run the write loop. -/
def Send (b : WebRTCBindSt) (buffers : List (List Nat)) :
    Except String Unit × List (List Nat) :=
  match b.dataChannel with
  | none => (Except.error errBindClosed, [])
  | some dc =>
    if b.closedFlag || !(dc.readyState == DCReadyState.dcOpen) then
      (Except.error errBindClosed, [])
    else sendLoop dc buffers

/-! ## Helper lemmas -/

theorem lookupKey_eraseKey {α : Type} (k : String) (l : List (String × α)) :
    lookupKey k (eraseKey k l) = none := by
  induction l with
  | nil => rfl
  | cons hd tl ih =>
    obtain ⟨k2, v⟩ := hd
    by_cases h : k2 = k
    · simpa [eraseKey, List.filter_cons, h] using ih
    · simpa [eraseKey, List.filter_cons, h, lookupKey] using ih

theorem eraseKey_of_lookup_none {α : Type} (k : String) (l : List (String × α))
    (h : lookupKey k l = none) : eraseKey k l = l := by
  induction l with
  | nil => rfl
  | cons hd tl ih =>
    obtain ⟨k2, v⟩ := hd
    simp only [lookupKey] at h
    by_cases hk : k2 = k
    · simp [hk] at h
    · simp only [hk, if_false] at h
      have hstep : eraseKey k ((k2, v) :: tl) = (k2, v) :: eraseKey k tl := by
        simp [eraseKey, List.filter_cons, hk]
      rw [hstep, ih h]

theorem lookupKey_insertKey {α : Type} (k : String) (v : α) (l : List (String × α)) :
    lookupKey k (insertKey k v l) = some v := by
  simp [insertKey, lookupKey]

theorem keys_eraseKey_nodup {α : Type} (k : String) (l : List (String × α))
    (h : (l.map Prod.fst).Nodup) : ((eraseKey k l).map Prod.fst).Nodup := by
  exact h.sublist ((List.filter_sublist l).map Prod.fst)

theorem not_mem_keys_eraseKey {α : Type} (k : String) (l : List (String × α)) :
    k ∉ (eraseKey k l).map Prod.fst := by
  intro hmem
  rcases List.mem_map.mp hmem with ⟨p, hp, hfst⟩
  have := List.of_mem_filter hp
  simp only [Bool.not_eq_true', beq_eq_false_iff_ne] at this
  exact this (by simpa using hfst)

theorem keys_insertKey_nodup {α : Type} (k : String) (v : α) (l : List (String × α))
    (h : (l.map Prod.fst).Nodup) : ((insertKey k v l).map Prod.fst).Nodup := by
  simp only [insertKey, List.map_cons]
  exact List.Nodup.cons (not_mem_keys_eraseKey k l) (keys_eraseKey_nodup k l h)

theorem mem_insertByName (a s : ProxyService) (l : List ProxyService) :
    a ∈ insertByName s l ↔ a = s ∨ a ∈ l := by
  induction l with
  | nil => simp [insertByName]
  | cons t ts ih =>
    simp only [insertByName]
    by_cases h : s.name ≤ t.name
    · simp [h]
    · simp only [h, if_false, List.mem_cons, ih]
      tauto

theorem mem_sortByName (a : ProxyService) (l : List ProxyService) :
    a ∈ sortByName l ↔ a ∈ l := by
  induction l with
  | nil => simp [sortByName]
  | cons s ss ih =>
    simp only [sortByName, mem_insertByName, List.mem_cons, ih]

theorem length_insertByName (s : ProxyService) (l : List ProxyService) :
    (insertByName s l).length = l.length + 1 := by
  induction l with
  | nil => rfl
  | cons t ts ih =>
    simp only [insertByName]
    by_cases h : s.name ≤ t.name
    · simp [h]
    · simp [h, ih]

theorem length_sortByName (l : List ProxyService) :
    (sortByName l).length = l.length := by
  induction l with
  | nil => rfl
  | cons s ss ih => simp [sortByName, length_insertByName, ih]

theorem scanPorts_some_spec (used : List Nat) (f : Nat → Bool) :
    ∀ fuel port p, scanPorts used f port fuel = some p →
      port ≤ p ∧ p < port + fuel ∧ used.contains p = false ∧ f p = true ∧
      (∀ q, port ≤ q → q < p → used.contains q = true ∨ f q = false) := by
  intro fuel
  induction fuel with
  | zero => intro port p h; simp [scanPorts] at h
  | succ n ih =>
    intro port p h
    simp only [scanPorts] at h
    by_cases hc : (!(used.contains port) && f port) = true
    · rw [if_pos hc] at h
      obtain ⟨h1, h2⟩ := Bool.and_eq_true_iff.mp hc
      obtain rfl : port = p := Option.some.inj h
      refine ⟨le_refl _, by omega, by simpa using h1, h2, ?_⟩
      intro q hq1 hq2
      omega
    · rw [if_neg hc] at h
      obtain ⟨h1, h2, h3, h4, h5⟩ := ih (port + 1) p h
      refine ⟨by omega, by omega, h3, h4, ?_⟩
      intro q hq1 hq2
      by_cases hq : q = port
      · subst hq
        rcases Bool.and_eq_false_iff.mp (Bool.not_eq_true _ ▸ hc) with hl | hr
        · left; simpa using hl
        · right; exact hr
      · exact h5 q (by omega) hq2

theorem scanPorts_none_spec (used : List Nat) (f : Nat → Bool) :
    ∀ fuel port,
      (∀ q, port ≤ q → q < port + fuel → used.contains q = true ∨ f q = false) →
      scanPorts used f port fuel = none := by
  intro fuel
  induction fuel with
  | zero => intro port _; rfl
  | succ n ih =>
    intro port hall
    simp only [scanPorts]
    have hport : used.contains port = true ∨ f port = false :=
      hall port (le_refl _) (by omega)
    have hc : (!(used.contains port) && f port) = false := by
      rcases hport with h1 | h2
      · rw [h1]; rfl
      · rw [h2, Bool.and_false]
    rw [hc, if_neg (by simp)]
    exact ih (port + 1) (fun q hq1 hq2 => hall q (by omega) (by omega))

theorem scanIdx_spec (used : List Int) :
    ∀ fuel i, (i + fuel = 255) →
      ((∀ j : Nat, i ≤ j → j < 255 → used.contains (Int.ofNat j) = true) →
        scanIdx used i fuel = 0) ∧
      (∀ j : Nat, i ≤ j → j < 255 → used.contains (Int.ofNat j) = false →
        (∀ j2 : Nat, i ≤ j2 → j2 < j → used.contains (Int.ofNat j2) = true) →
        scanIdx used i fuel = Int.ofNat j) := by
  intro fuel
  induction fuel with
  | zero =>
    intro i hi
    constructor
    · intro _; rfl
    · intro j hj1 hj2 _ _; omega
  | succ n ih =>
    intro i hi
    constructor
    · intro hall
      simp only [scanIdx]
      rw [hall i (le_refl _) (by omega)]
      simp only [if_true]
      exact (ih (i + 1) (by omega)).1 (fun j hj1 hj2 => hall j (by omega) hj2)
    · intro j hj1 hj2 hfree hbelow
      simp only [scanIdx]
      by_cases hcur : used.contains (Int.ofNat i) = true
      · rw [hcur]
        simp only [if_true]
        have hij : i ≠ j := by
          intro hcontr; rw [hcontr] at hcur; rw [hcur] at hfree; exact absurd hfree (by simp)
        exact (ih (i + 1) (by omega)).2 j (by omega) hj2 hfree
          (fun j2 hj21 hj22 => hbelow j2 (by omega) hj22)
      · have hij : i = j := by
          by_contra hne
          exact hcur (hbelow i (le_refl _) (by omega))
        rw [Bool.not_eq_true] at hcur
        rw [hcur]
        simp [hij]

theorem stopService_catalog (st : ProxyState) (id : String) :
    (stopService st id).catalog = st.catalog := rfl

theorem restartService_catalog (st : ProxyState) (id : String) :
    (restartService st id).catalog = st.catalog := by
  unfold restartService
  dsimp only
  split
  · rfl
  · split
    · rfl
    · rfl

theorem restartService_syncChan (st : ProxyState) (id : String) :
    (restartService st id).syncChan = st.syncChan := by
  unfold restartService
  dsimp only
  split
  · rfl
  · split
    · rfl
    · rfl

theorem restartService_syncCallbacks (st : ProxyState) (id : String) :
    (restartService st id).syncCallbacks = st.syncCallbacks := by
  unfold restartService
  dsimp only
  split
  · rfl
  · split
    · rfl
    · rfl

theorem find?_map_id_preserving (g : ProxyService → ProxyService)
    (hg : ∀ s, (g s).id = s.id) (id : String) (l : List ProxyService) :
    (l.map g).find? (fun s => s.id == id) =
      (l.find? (fun s => s.id == id)).map g := by
  induction l with
  | nil => rfl
  | cons s ss ih =>
    simp only [List.map_cons, List.find?]
    rw [hg s]
    cases h : (s.id == id) with
    | true => rfl
    | false => exact ih

theorem applyConfig_id (config : ProxyServiceConfig) (s : ProxyService) :
    (applyConfig config s).id = s.id := by
  unfold applyConfig
  cases config.name <;> cases config.localHost <;> cases config.localPort <;>
    cases config.enabled <;> rfl

theorem syncOp_events (st : ProxyState) (freshId operation : String)
    (service : ProxyService) (now : Nat) (h : st.syncChan ≠ ChanState.unset) :
    (syncServiceOperation st freshId operation service now).2
      = [SyncEv.register freshId ⟨operation, service.id, now, 0⟩,
         SyncEv.attempt ⟨msgTypeServiceSync, freshId, some operation, some service, none⟩,
         if st.syncChan = ChanState.free then
           SyncEv.sent ⟨msgTypeServiceSync, freshId, some operation, some service, none⟩
         else SyncEv.dropped freshId] := by
  unfold syncServiceOperation
  cases hc : st.syncChan with
  | unset => exact absurd hc h
  | free => simp
  | full => simp

theorem syncOp_attemptCount (st : ProxyState) (freshId operation : String)
    (service : ProxyService) (now : Nat) (h : st.syncChan ≠ ChanState.unset) :
    attemptCount (syncServiceOperation st freshId operation service now).2 = 1 := by
  rw [syncOp_events st freshId operation service now h]
  by_cases hc : st.syncChan = ChanState.free
  · simp [hc, attemptCount, SyncEv.isAttempt]
  · simp [hc, attemptCount, SyncEv.isAttempt]

theorem syncOp_callbacks_full (st : ProxyState) (freshId operation : String)
    (service : ProxyService) (now : Nat) (h : st.syncChan = ChanState.full)
    (hfresh : lookupKey freshId st.syncCallbacks = none) :
    (syncServiceOperation st freshId operation service now).1.syncCallbacks
      = st.syncCallbacks := by
  unfold syncServiceOperation
  rw [h]
  simp only [insertKey]
  have h1 : eraseKey freshId ((freshId, (⟨operation, service.id, now, 0⟩ : SyncCallback))
      :: eraseKey freshId st.syncCallbacks) = eraseKey freshId st.syncCallbacks := by
    simp [eraseKey, List.filter_cons]
  rw [h1, eraseKey_of_lookup_none freshId st.syncCallbacks hfresh]

theorem syncOp_catalog (st : ProxyState) (freshId operation : String)
    (service : ProxyService) (now : Nat) :
    (syncServiceOperation st freshId operation service now).1.catalog = st.catalog := by
  unfold syncServiceOperation
  cases st.syncChan <;> rfl

theorem syncOp_syncChan (st : ProxyState) (freshId operation : String)
    (service : ProxyService) (now : Nat) :
    (syncServiceOperation st freshId operation service now).1.syncChan = st.syncChan := by
  unfold syncServiceOperation
  cases h : st.syncChan <;> simp [h]

theorem GetService_update (st : ProxyState) (id : String) (config : ProxyServiceConfig) :
    GetService { st with catalog := st.catalog.map (fun s => if s.id == id then applyConfig config s else s) } id
      = (GetService st id).map (fun s => if s.id == id then applyConfig config s else s) := by
  unfold GetService
  exact find?_map_id_preserving _
    (fun s => by by_cases h : (s.id == id) = true <;> simp [h, applyConfig_id]) id st.catalog

theorem find?_filter_not_id (l : List ProxyService) (id : String) :
    (l.filter (fun s => !(s.id == id))).find? (fun s => s.id == id) = none := by
  induction l with
  | nil => rfl
  | cons s ss ih =>
    rw [List.filter_cons]
    by_cases h : (s.id == id) = true
    · simp [h, ih]
    · rw [Bool.not_eq_true] at h
      simp [h, List.find?, ih]

theorem backoffAt_closed (n : Nat) : backoffAt n = min (2 ^ n) 60 := by
  induction n with
  | zero => simp [backoffAt]
  | succ k ih =>
    have h2 : (2 : Nat) ^ (k + 1) = 2 * 2 ^ k := by rw [pow_succ]; ring
    simp only [backoffAt, nextBackoff, ih]
    omega

/-! ## Claim theorems -/

/-- C10: `ModifyService` called with a config in which all four optional
fields (name, local_host, local_port, enabled) are absent returns the
error "no fields to update", leaves the whole provider state — catalog,
listeners and callbacks — unchanged, and performs no sync, regardless of
whether the given id exists. -/
theorem modifyService_no_fields_noop (st : ProxyState) (freshMsgId id : String) (now : Nat) :
    ModifyService st freshMsgId id ⟨none, none, none, none⟩ now
      = (Except.error errNoFields, st, []) := rfl

/-- C7: the wait before retry `n` inside one `reconnect()` invocation is
`min(2^n, 60)` seconds: it starts at one second, is doubled and capped at
60 seconds after every failed attempt, and never exceeds 60 seconds.  The
backoff variable is local to each `reconnect()` call, so the sequence
restarts at one second on the reconnect that follows a successful
connection. -/
theorem reconnect_backoff_spec :
    backoffAt 0 = 1 ∧
    (∀ n, backoffAt (n + 1) = min (2 * backoffAt n) 60) ∧
    (∀ n, backoffAt n ≤ 60) ∧
    (∀ n, backoffAt n = min (2 ^ n) 60) := by
  refine ⟨rfl, fun n => rfl, fun n => ?_, backoffAt_closed⟩
  rw [backoffAt_closed]
  omega

/-- C3: the port allocator (default range [8000, 9000], set by
`NewProxyProvider`) walks the configured range in ascending order, skips
every port stored as some service's tunnel_port, probes the remaining
ports with the TCP-bind oracle `sysFree`, and returns the first success;
when every port of the range is used or fails the probe it returns the
exhaustion error and yields no port. -/
theorem allocatePort_first_free :
    (NewProxyProvider.portStart = 8000 ∧ NewProxyProvider.portStop = 9000) ∧
    (∀ (st : ProxyState) (sysFree : Nat → Bool) (p : Nat),
      allocatePort st sysFree = Except.ok p →
      st.portStart ≤ p ∧ p ≤ st.portStop ∧
      (usedTunnelPorts st.catalog).contains p = false ∧ sysFree p = true ∧
      (∀ q, st.portStart ≤ q → q < p →
        (usedTunnelPorts st.catalog).contains q = true ∨ sysFree q = false)) ∧
    (∀ (st : ProxyState) (sysFree : Nat → Bool),
      (∀ q, st.portStart ≤ q → q ≤ st.portStop →
        (usedTunnelPorts st.catalog).contains q = true ∨ sysFree q = false) →
      allocatePort st sysFree = Except.error (errNoPorts st.portStart st.portStop)) := by
  refine ⟨⟨rfl, rfl⟩, ?_, ?_⟩
  · intro st sysFree p h
    unfold allocatePort allocatePortFrom at h
    cases hscan : scanPorts (usedTunnelPorts st.catalog) sysFree st.portStart
        (st.portStop + 1 - st.portStart) with
    | none => rw [hscan] at h; exact absurd h (by simp)
    | some p2 =>
      rw [hscan] at h
      obtain rfl : p2 = p := by simpa using h
      obtain ⟨h1, h2, h3, h4, h5⟩ := scanPorts_some_spec _ _ _ _ _ hscan
      exact ⟨h1, by omega, h3, h4, h5⟩
  · intro st sysFree hall
    unfold allocatePort allocatePortFrom
    rw [scanPorts_none_spec _ _ _ _ (fun q hq1 hq2 => hall q hq1 (by omega))]

/-! Concrete fixtures used by witnesses and counterexamples. -/

def svcWeb : ProxyService := ⟨"id1", "web", 8000, "localhost", 3000, "http", true⟩

def stOneSvc : ProxyState :=
  { NewProxyProvider with catalog := [svcWeb], syncChan := ChanState.free }

def mid1 : String := "m1"

def mid2 : String := "m2"

def idMissing : String := "nope"

def probeAbove8001 : Nat → Bool := fun p => decide (8001 < p)

/-- Witness for C3: on a catalog occupying port 8000 and a probe that only
succeeds above 8001, the allocator returns 8002, and the theorem yields
that 8002 lies in the range, is unused and passed the probe. -/
theorem allocatePort_first_free_witness :
    stOneSvc.portStart ≤ 8002 ∧ 8002 ≤ stOneSvc.portStop ∧
    (usedTunnelPorts stOneSvc.catalog).contains 8002 = false ∧
    probeAbove8001 8002 = true := by
  have h := allocatePort_first_free.2.1 stOneSvc probeAbove8001 8002 (by rfl)
  exact ⟨h.1, h.2.1, h.2.2.1, h.2.2.2.1⟩

/-! ## C8: WebRTC bind send path -/

/-- The buffers `Send` actually writes: the non-empty ones. -/
def nonEmptyBuffers (l : List (List Nat)) : List (List Nat) :=
  l.filter (fun d => !(d.length == 0))

theorem sendLoop_all_ok (dc : DataChannel) (l : List (List Nat))
    (h : ∀ d ∈ l, d ≠ [] → dc.sendResult d = none) :
    sendLoop dc l = (Except.ok (), nonEmptyBuffers l) := by
  induction l with
  | nil => rfl
  | cons d rest ih =>
    by_cases hd : d.length = 0
    · have hdnil : d = [] := List.length_eq_zero.mp hd
      simp only [sendLoop, hd, if_pos rfl, nonEmptyBuffers, List.filter_cons]
      subst hdnil
      simpa [nonEmptyBuffers] using ih (fun x hx => h x (List.mem_cons_of_mem _ hx))
    · have hdnil : d ≠ [] := fun hc => hd (by simp [hc])
      have hsend := h d (List.mem_cons_self _ _) hdnil
      simp only [sendLoop, hd, if_neg hd, hsend]
      rw [ih (fun x hx => h x (List.mem_cons_of_mem _ hx))]
      simp [nonEmptyBuffers, List.filter_cons, hd]

theorem sendLoop_first_error (dc : DataChannel) (e : String) :
    ∀ (pre : List (List Nat)) (d : List Nat) (post : List (List Nat)),
      (∀ x ∈ pre, x ≠ [] → dc.sendResult x = none) → d ≠ [] →
      dc.sendResult d = some e →
      sendLoop dc (pre ++ d :: post) = (Except.error e, nonEmptyBuffers pre) := by
  intro pre
  induction pre with
  | nil =>
    intro d post _ hd he
    have hdl : ¬ d.length = 0 := fun hc => hd (List.length_eq_zero.mp hc)
    simp only [List.nil_append, sendLoop, if_neg hdl, he]
    rfl
  | cons x rest ih =>
    intro d post hpre hd he
    by_cases hx : x.length = 0
    · have hxnil : x = [] := List.length_eq_zero.mp hx
      simp only [List.cons_append, sendLoop, if_pos hx, List.append_eq]
      rw [ih d post (fun y hy => hpre y (List.mem_cons_of_mem _ hy)) hd he]
      simp [nonEmptyBuffers, List.filter_cons, hx]
    · have hxnil : x ≠ [] := fun hc => hx (by simp [hc])
      have hsend := hpre x (List.mem_cons_self _ _) hxnil
      simp only [List.cons_append, sendLoop, if_neg hx, hsend, List.append_eq]
      rw [ih d post (fun y hy => hpre y (List.mem_cons_of_mem _ hy)) hd he]
      simp [nonEmptyBuffers, List.filter_cons, hx]

/-- C8: `WebRTCBind.Send` returns the bind-closed error whenever the closed
flag is set, the data channel pointer is nil, or the channel's ready state
is not Open, writing nothing; otherwise it skips empty buffers, writes
each non-empty buffer as one data-channel message in order, and stops at
and propagates the first write error. -/
theorem wrtcSend_spec :
    (∀ (b : WebRTCBindSt) (buffers : List (List Nat)),
      (b.closedFlag = true ∨ b.dataChannel = none ∨
        (∀ dc, b.dataChannel = some dc → dc.readyState ≠ DCReadyState.dcOpen)) →
      Send b buffers = (Except.error errBindClosed, [])) ∧
    (∀ (b : WebRTCBindSt) (dc : DataChannel) (buffers : List (List Nat)),
      b.closedFlag = false → b.dataChannel = some dc →
      dc.readyState = DCReadyState.dcOpen →
      ((∀ d ∈ buffers, d ≠ [] → dc.sendResult d = none) →
        Send b buffers = (Except.ok (), nonEmptyBuffers buffers)) ∧
      (∀ (pre : List (List Nat)) (d : List Nat) (post : List (List Nat)) (e : String),
        buffers = pre ++ d :: post → d ≠ [] →
        (∀ x ∈ pre, x ≠ [] → dc.sendResult x = none) →
        dc.sendResult d = some e →
        Send b buffers = (Except.error e, nonEmptyBuffers pre))) := by
  constructor
  · intro b buffers h
    unfold Send
    cases hdc : b.dataChannel with
    | none => rfl
    | some dc =>
      have hcond : (b.closedFlag || !(dc.readyState == DCReadyState.dcOpen)) = true := by
        rcases h with h1 | h2 | h3
        · simp [h1]
        · rw [hdc] at h2; exact absurd h2 (by simp)
        · have := h3 dc hdc
          simp only [Bool.or_eq_true, Bool.not_eq_true']
          right
          simpa using this
      dsimp only
      rw [if_pos hcond]
  · intro b dc buffers hclosed hdc hready
    constructor
    · intro hall
      unfold Send
      rw [hdc]
      dsimp only
      rw [if_neg (by simp [hclosed, hready])]
      exact sendLoop_all_ok dc buffers hall
    · intro pre d post e hbuf hd hpre he
      unfold Send
      rw [hdc]
      dsimp only
      rw [if_neg (by simp [hclosed, hready]), hbuf]
      exact sendLoop_first_error dc e pre d post hpre hd he

def dcAllOk : DataChannel := ⟨DCReadyState.dcOpen, fun _ => none⟩

def bindOpen : WebRTCBindSt := ⟨false, some dcAllOk⟩

def bindClosed : WebRTCBindSt := ⟨true, some dcAllOk⟩

/-- Witness for C8: a closed bind rejects a write with the bind-closed
error, and an open bind writes exactly the non-empty buffers. -/
theorem wrtcSend_spec_witness :
    Send bindClosed [[1]] = (Except.error errBindClosed, []) ∧
    Send bindOpen [[1], [], [2, 3]] = (Except.ok (), [[1], [2, 3]]) := by
  constructor
  · exact wrtcSend_spec.1 bindClosed [[1]] (Or.inl rfl)
  · have h := (wrtcSend_spec.2 bindOpen dcAllOk [[1], [], [2, 3]] rfl rfl rfl).1
      (fun d _ _ => rfl)
    simpa [nonEmptyBuffers] using h

/-! ## C2: peer registration -/

def resTypeConnect : String := "connect-response"

/-- C2 (amended): for a connect-request whose peer id is not in the peer
table and whose payload carries no edge_ip, the coordinator assigns the
smallest index in [0,255) unused by any table entry (returning 0 when all
255 are taken), derives edge_ip = 10.0.index.1 and client_ip =
10.0.index.2 solely from that index, stores the peer under its id, and
replies with a message of the requested response type to that peer
carrying the index, the edge id, type "edge", the edge public key and both
ips.  (When the request payload itself carries a non-empty edge_ip the
code skips the allocation — see the counterexample.) -/
theorem connectRequest_new_peer_alloc (m : WGManager) (reqData : PeerConfig)
    (resType : String)
    (hnew : lookupKey reqData.id m.clientPeers = none)
    (hempty : reqData.edgeIP = "") :
    (handleConnectRequestInner m reqData resType).2.payload
        = ⟨findAvailableIndex m, m.id, "edge", "", m.publicKey,
           generateIP (findAvailableIndex m) false, generateIP (findAvailableIndex m) true⟩ ∧
    (handleConnectRequestInner m reqData resType).2.resType = resType ∧
    (handleConnectRequestInner m reqData resType).2.toPeer = reqData.id ∧
    lookupKey reqData.id (handleConnectRequestInner m reqData resType).1.clientPeers
        = some { reqData with
                 index := findAvailableIndex m,
                 edgeIP := generateIP (findAvailableIndex m) false,
                 clientIP := generateIP (findAvailableIndex m) true } ∧
    generateIP (findAvailableIndex m) false
        = "10.0." ++ toString (findAvailableIndex m) ++ ".1" ∧
    generateIP (findAvailableIndex m) true
        = "10.0." ++ toString (findAvailableIndex m) ++ ".2" ∧
    ((∀ j : Nat, j < 255 → (usedIndices m).contains (Int.ofNat j) = true) →
       findAvailableIndex m = 0) ∧
    (∀ j : Nat, j < 255 → (usedIndices m).contains (Int.ofNat j) = false →
       (∀ j2 : Nat, j2 < j → (usedIndices m).contains (Int.ofNat j2) = true) →
       findAvailableIndex m = Int.ofNat j) := by
  have hspec := scanIdx_spec (usedIndices m) 255 0 (by omega)
  unfold handleConnectRequestInner
  rw [hnew]
  dsimp only
  rw [if_pos hempty]
  dsimp only
  refine ⟨rfl, rfl, rfl, lookupKey_insertKey _ _ _, rfl, rfl, ?_, ?_⟩
  · intro hall
    exact hspec.1 (fun j _ hj2 => hall j hj2)
  · intro j hj1 hj2 hbelow
    exact hspec.2 j (by omega) hj1 hj2 (fun j2 _ hj22 => hbelow j2 hj22)

def mgrEmpty : WGManager := { id := "edge1", publicKey := "PK", clientPeers := [] }

def reqFresh : PeerConfig := ⟨0, "p1", "", "", "", "", ""⟩

/-- Witness for C2: a fresh peer table and a request without edge_ip get
index 0, edge_ip 10.0.0.1 and client_ip 10.0.0.2 in the response. -/
theorem connectRequest_new_peer_alloc_witness :
    (handleConnectRequestInner mgrEmpty reqFresh resTypeConnect).2.payload
      = ⟨0, mgrEmpty.id, "edge", "", mgrEmpty.publicKey, "10.0.0.1", "10.0.0.2"⟩ := by
  have h := (connectRequest_new_peer_alloc mgrEmpty reqFresh resTypeConnect rfl rfl).1
  simpa using h

def reqWithIP : PeerConfig := ⟨7, "p1", "", "", "", "10.0.99.9", ""⟩

/-- C2 counterexample: a connect-request for a peer id absent from the
peer table but whose payload already carries edge_ip "10.0.99.9" bypasses
the allocator entirely: the smallest free index is 0 (so the claim demands
edge_ip "10.0.0.1"), yet the response carries the request's own
"10.0.99.9". -/
theorem connectRequest_external_ip_cex :
    lookupKey reqWithIP.id mgrEmpty.clientPeers = none ∧
    findAvailableIndex mgrEmpty = 0 ∧
    generateIP (findAvailableIndex mgrEmpty) false = "10.0.0.1" ∧
    (handleConnectRequestInner mgrEmpty reqWithIP resTypeConnect).2.payload.edgeIP
      = "10.0.99.9" ∧
    ¬ (handleConnectRequestInner mgrEmpty reqWithIP resTypeConnect).2.payload.edgeIP
      = generateIP (findAvailableIndex mgrEmpty) false := by
  refine ⟨rfl, rfl, rfl, rfl, ?_⟩
  decide

/-! ## C4: sync callback lifecycle -/

/-- C4: with a configured channel, every sync operation registers a
`SyncCallback` under its fresh message id strictly before the enqueue
attempt; when the channel is full the entry is deleted again and nothing
is sent (the sync is skipped); the first `service-sync-ack` bearing a
message id removes that entry; and key-distinctness of the callback table
is preserved, so the table holds at most one in-flight callback per
message id and none after a terminal ack. -/
theorem syncCallback_lifecycle (st : ProxyState) (freshId operation : String)
    (service : ProxyService) (now : Nat) (ack : AckData)
    (hchan : st.syncChan ≠ ChanState.unset)
    (hfresh : lookupKey freshId st.syncCallbacks = none) :
    (∃ rest, (syncServiceOperation st freshId operation service now).2
        = SyncEv.register freshId ⟨operation, service.id, now, 0⟩
          :: SyncEv.attempt ⟨msgTypeServiceSync, freshId, some operation, some service, none⟩
          :: rest) ∧
    (st.syncChan = ChanState.full →
       (syncServiceOperation st freshId operation service now).1.syncCallbacks
           = st.syncCallbacks ∧
       sentMsgs (syncServiceOperation st freshId operation service now).2 = []) ∧
    (st.syncChan = ChanState.free →
       lookupKey freshId (syncServiceOperation st freshId operation service now).1.syncCallbacks
           = some ⟨operation, service.id, now, 0⟩) ∧
    lookupKey ack.messageId (HandleServiceSyncAck st ack).syncCallbacks = none ∧
    ((st.syncCallbacks.map Prod.fst).Nodup →
       ((syncServiceOperation st freshId operation service now).1.syncCallbacks.map Prod.fst).Nodup) := by
  refine ⟨?_, ?_, ?_, ?_, ?_⟩
  · rw [syncOp_events st freshId operation service now hchan]
    exact ⟨_, rfl⟩
  · intro hfull
    refine ⟨syncOp_callbacks_full st freshId operation service now hfull hfresh, ?_⟩
    rw [syncOp_events st freshId operation service now hchan]
    rw [hfull]
    rfl
  · intro hfree
    unfold syncServiceOperation
    rw [hfree]
    exact lookupKey_insertKey _ _ _
  · exact lookupKey_eraseKey _ _
  · intro hnodup
    unfold syncServiceOperation
    cases hc : st.syncChan with
    | unset => exact hnodup
    | free => exact keys_insertKey_nodup _ _ _ hnodup
    | full =>
      exact keys_eraseKey_nodup _ _ (keys_insertKey_nodup _ _ _ hnodup)

def stOneCb : ProxyState :=
  { NewProxyProvider with syncChan := ChanState.free }

def ackM1 : AckData := ⟨"success", "ok", mid1, ""⟩

/-- Witness for C4, at a fresh provider with a free channel: the event
trace starts with the registration followed by the enqueue attempt, and
an ack for a message id leaves no entry under that id. -/
theorem syncCallback_lifecycle_witness :
    (∃ rest, (syncServiceOperation stOneCb mid1 opCreated svcWeb 3).2
        = SyncEv.register mid1 ⟨opCreated, svcWeb.id, 3, 0⟩
          :: SyncEv.attempt ⟨msgTypeServiceSync, mid1, some opCreated, some svcWeb, none⟩
          :: rest) ∧
    lookupKey ackM1.messageId (HandleServiceSyncAck stOneCb ackM1).syncCallbacks = none := by
  have h := syncCallback_lifecycle stOneCb mid1 opCreated svcWeb 3 ackM1
    (by decide) (by rfl)
  exact ⟨h.1, h.2.2.2.1⟩

/-! ## C1: reconnect batch sync -/

/-- C1 (amended): with the sync channel configured with capacity and a
non-empty catalog, the on-connect handler emits exactly one enqueue
attempt, namely a `service-sync-batch` whose payload carries the fresh
message id and every current service (the name-ordered catalog) — and no
`operation` key at all; with an empty catalog nothing is emitted. -/
theorem onReconnect_batch (st : ProxyState) (freshId : String) (now : Nat)
    (hfree : st.syncChan = ChanState.free) (hne : st.catalog ≠ []) :
    sentMsgs (OnReconnect st freshId now).2
        = [⟨msgTypeServiceSyncBatch, freshId, none, none, some (GetServices st)⟩] ∧
    attemptCount (OnReconnect st freshId now).2 = 1 ∧
    (∀ s, s ∈ st.catalog → s ∈ GetServices st) ∧
    (∀ (st2 : ProxyState) (f2 : String) (n2 : Nat), st2.catalog = [] →
        (OnReconnect st2 f2 n2).2 = []) := by
  have hlen : ¬ (GetServices st).length = 0 := by
    unfold GetServices
    rw [length_sortByName]
    exact fun hc => hne (List.length_eq_zero.mp hc)
  unfold OnReconnect syncAllServices
  rw [if_neg (by rw [hfree]; exact fun hc => ChanState.noConfusion hc)]
  refine ⟨?_, ?_, ?_, ?_⟩
  · rw [if_neg hlen, if_pos hfree]
    rfl
  · rw [if_neg hlen, if_pos hfree]
    rfl
  · intro s hs
    unfold GetServices
    exact (mem_sortByName s st.catalog).mpr hs
  · intro st2 f2 n2 hempty
    by_cases hc : st2.syncChan = ChanState.unset
    · rw [if_pos hc]
    · rw [if_neg hc]
      have hlen2 : (GetServices st2).length = 0 := by
        unfold GetServices
        rw [length_sortByName, hempty]
        rfl
      rw [if_pos hlen2]

/-- Witness for C1: at a one-service catalog with a free channel the
handler emits exactly one batch message, with no operation key. -/
theorem onReconnect_batch_witness :
    sentMsgs (OnReconnect stOneSvc mid1 5).2
      = [⟨msgTypeServiceSyncBatch, mid1, none, none, some (GetServices stOneSvc)⟩] ∧
    attemptCount (OnReconnect stOneSvc mid1 5).2 = 1 := by
  have h := onReconnect_batch stOneSvc mid1 5 rfl (by decide)
  exact ⟨h.1, h.2.1⟩

/-- C1 counterexample: with one service in the catalog and a free channel
the emitted `service-sync-batch` carries no `operation` key (in particular
not `operation=sync` as claimed), and with an empty catalog the handler
emits no batch at all instead of exactly one. -/
theorem onReconnect_batch_cex :
    (sentMsgs (OnReconnect stOneSvc mid2 5).2).length = 1 ∧
    (∀ msg ∈ sentMsgs (OnReconnect stOneSvc mid2 5).2,
        msg.type = msgTypeServiceSyncBatch ∧ ¬ msg.operation = some opSync) ∧
    stOneCb.catalog = [] ∧ stOneCb.syncChan = ChanState.free ∧
    sentMsgs (OnReconnect stOneCb mid2 5).2 = [] := by
  decide

/-! ## C6: AddService validation and the absent conflict check -/

def hostLocal : String := "localhost"

def nmSvc : String := "svc"

def sidNew : String := "id9"

def allFree : Nat → Bool := fun _ => true

/-- C6 (amended): `AddService` returns a validation error and inserts no
row whenever the protocol is outside {http, websocket}, the local port is
below 1 or above 65535, the host is empty, or the name is empty; but it
performs no (host, port) conflict check: whenever the fields validate and
a tunnel port is allocatable, the insert succeeds — even if an identical
(local_host, local_port) pair is already in the catalog (see the
counterexample). -/
theorem addService_validation (st : ProxyState) (sysFree : Nat → Bool)
    (sid midA nm host : String) (port : Int) (protocol : String) (now : Nat) :
    (¬ (protocol = protoHTTP ∨ protocol = protoWebsocket) →
       (∃ e, (AddService st sysFree sid midA nm host port protocol now).1 = Except.error e) ∧
       (AddService st sysFree sid midA nm host port protocol now).2.1 = st) ∧
    (port < 1 ∨ port > 65535 →
       (∃ e, (AddService st sysFree sid midA nm host port protocol now).1 = Except.error e) ∧
       (AddService st sysFree sid midA nm host port protocol now).2.1 = st) ∧
    (host = "" →
       (∃ e, (AddService st sysFree sid midA nm host port protocol now).1 = Except.error e) ∧
       (AddService st sysFree sid midA nm host port protocol now).2.1 = st) ∧
    (nm = "" →
       (∃ e, (AddService st sysFree sid midA nm host port protocol now).1 = Except.error e) ∧
       (AddService st sysFree sid midA nm host port protocol now).2.1 = st) ∧
    (∀ p : Nat, (protocol = protoHTTP ∨ protocol = protoWebsocket) →
       1 ≤ port → port ≤ 65535 → ¬ host = "" → ¬ nm = "" →
       allocatePort st sysFree = Except.ok p →
       (AddService st sysFree sid midA nm host port protocol now).1
           = Except.ok ⟨sid, nm, p, host, port, protocol, true⟩ ∧
       (⟨sid, nm, p, host, port, protocol, true⟩ : ProxyService)
           ∈ (AddService st sysFree sid midA nm host port protocol now).2.1.catalog) := by
  refine ⟨?_, ?_, ?_, ?_, ?_⟩
  · intro hbad
    push_neg at hbad
    have hcond : (!(protocol == protoHTTP) && !(protocol == protoWebsocket)) = true := by
      simp only [Bool.and_eq_true, Bool.not_eq_true', beq_eq_false_iff_ne]
      exact hbad
    unfold AddService
    rw [if_pos hcond]
    exact ⟨⟨_, rfl⟩, rfl⟩
  · intro hport
    unfold AddService
    by_cases hp : (!(protocol == protoHTTP) && !(protocol == protoWebsocket)) = true
    · rw [if_pos hp]
      exact ⟨⟨_, rfl⟩, rfl⟩
    · rw [if_neg hp, if_pos hport]
      exact ⟨⟨_, rfl⟩, rfl⟩
  · intro hhost
    unfold AddService
    by_cases hp : (!(protocol == protoHTTP) && !(protocol == protoWebsocket)) = true
    · rw [if_pos hp]
      exact ⟨⟨_, rfl⟩, rfl⟩
    · by_cases hb : port < 1 ∨ port > 65535
      · rw [if_neg hp, if_pos hb]
        exact ⟨⟨_, rfl⟩, rfl⟩
      · rw [if_neg hp, if_neg hb, if_pos hhost]
        exact ⟨⟨_, rfl⟩, rfl⟩
  · intro hname
    unfold AddService
    by_cases hp : (!(protocol == protoHTTP) && !(protocol == protoWebsocket)) = true
    · rw [if_pos hp]
      exact ⟨⟨_, rfl⟩, rfl⟩
    · by_cases hb : port < 1 ∨ port > 65535
      · rw [if_neg hp, if_pos hb]
        exact ⟨⟨_, rfl⟩, rfl⟩
      · by_cases hh : host = ""
        · rw [if_neg hp, if_neg hb, if_pos hh]
          exact ⟨⟨_, rfl⟩, rfl⟩
        · rw [if_neg hp, if_neg hb, if_neg hh, if_pos hname]
          exact ⟨⟨_, rfl⟩, rfl⟩
  · intro p hproto hlo hhi hhost hname halloc
    have h1 : (!(protocol == protoHTTP) && !(protocol == protoWebsocket)) = false := by
      rcases hproto with h | h <;> simp [h]
    have h2 : ¬ (port < 1 ∨ port > 65535) := by omega
    unfold AddService
    rw [h1]
    rw [if_neg (by simp)]
    rw [if_neg h2, if_neg hhost, if_neg hname, halloc]
    dsimp only
    constructor
    · rfl
    · rw [syncOp_catalog]
      by_cases hstart : ({ st with catalog := st.catalog ++ [(⟨sid, nm, p, host, port, protocol, true⟩ : ProxyService)] } : ProxyState).started = true
      · rw [if_pos hstart]
        simp
      · rw [if_neg hstart]
        simp

/-- Witness for C6: local_port 0 is rejected with an error and no row is
inserted, and a valid add through an allocatable port succeeds. -/
theorem addService_validation_witness :
    ((∃ e, (AddService stOneSvc allFree sidNew mid1 nmSvc hostLocal 0 protoHTTP 0).1
        = Except.error e) ∧
     (AddService stOneSvc allFree sidNew mid1 nmSvc hostLocal 0 protoHTTP 0).2.1 = stOneSvc) ∧
    (AddService stOneSvc allFree sidNew mid1 nmSvc hostLocal 443 protoHTTP 0).1
        = Except.ok ⟨sidNew, nmSvc, 8001, hostLocal, 443, protoHTTP, true⟩ := by
  constructor
  · exact (addService_validation stOneSvc allFree sidNew mid1 nmSvc hostLocal 0
      protoHTTP 0).2.1 (Or.inl (by decide))
  · exact ((addService_validation stOneSvc allFree sidNew mid1 nmSvc hostLocal 443
      protoHTTP 0).2.2.2.2 8001 (Or.inl rfl) (by decide) (by decide) (by decide)
      (by decide) (by decide)).1

/-- C6 counterexample: the catalog already holds a service at
(localhost, 3000), yet `AddService` for the identical pair succeeds and
afterwards two rows share that (host, port) — there is no Conflict
failure. -/
theorem addService_duplicate_cex :
    svcWeb ∈ stOneSvc.catalog ∧ svcWeb.localHost = hostLocal ∧
    svcWeb.localPort = 3000 ∧
    (AddService stOneSvc allFree sidNew mid1 nmSvc hostLocal 3000 protoHTTP 0).1
        = Except.ok ⟨sidNew, nmSvc, 8001, hostLocal, 3000, protoHTTP, true⟩ ∧
    ((AddService stOneSvc allFree sidNew mid1 nmSvc hostLocal 3000 protoHTTP 0).2.1.catalog.filter
        (fun s => s.localHost == hostLocal && s.localPort == 3000)).length = 2 := by
  decide

/-! ## C9 and C5: mutations on missing ids, sync enqueue counts -/

theorem GetService_restart (st : ProxyState) (id id2 : String) :
    GetService (restartService st id) id2 = GetService st id2 := by
  unfold GetService
  rw [restartService_catalog]

theorem GetService_modify_step (st : ProxyState) (id : String)
    (cfg : ProxyServiceConfig) (s0 : ProxyService)
    (hsome : GetService st id = some s0) :
    GetService (restartService { st with catalog := st.catalog.map (fun s => if s.id == id then applyConfig cfg s else s) } id) id
      = some (applyConfig cfg s0) := by
  have hpred : (s0.id == id) = true := by
    have h := hsome
    unfold GetService at h
    have h2 := List.find?_some h
    simpa using h2
  rw [GetService_restart, GetService_update, hsome]
  simp only [Option.map_some']
  rw [if_pos hpred]

theorem GetService_modify_step_none (st : ProxyState) (id : String)
    (cfg : ProxyServiceConfig)
    (hmiss : GetService st id = none) :
    GetService (restartService { st with catalog := st.catalog.map (fun s => if s.id == id then applyConfig cfg s else s) } id) id
      = none := by
  rw [GetService_restart, GetService_update, hmiss]
  rfl

theorem modifyService_missing (st : ProxyState) (midA id : String)
    (cfg : ProxyServiceConfig) (now : Nat)
    (hmiss : GetService st id = none)
    (h1 : presentEmpty cfg.name = false) (h2 : presentEmpty cfg.localHost = false)
    (h3 : presentBadPort cfg.localPort = false)
    (h4 : ¬ (cfg.name = none ∧ cfg.localHost = none ∧ cfg.localPort = none
              ∧ cfg.enabled = none)) :
    (ModifyService st midA id cfg now).1 = Except.ok () ∧
    (ModifyService st midA id cfg now).2.1.catalog = st.catalog ∧
    (ModifyService st midA id cfg now).2.2 = [] := by
  have hmap : st.catalog.map (fun s => if s.id == id then applyConfig cfg s else s)
      = st.catalog := by
    have hall := List.find?_eq_none.mp hmiss
    calc st.catalog.map (fun s => if s.id == id then applyConfig cfg s else s)
        = st.catalog.map (fun s => s) := by
          refine List.map_congr_left (fun a ha => ?_)
          have := hall a ha
          rw [Bool.not_eq_true] at this
          rw [this]
          simp
      _ = st.catalog := List.map_id' st.catalog
  unfold ModifyService
  rw [if_neg (by rw [h1]; exact fun hc => Bool.noConfusion hc)]
  rw [if_neg (by rw [h2]; exact fun hc => Bool.noConfusion hc)]
  rw [if_neg (by rw [h3]; exact fun hc => Bool.noConfusion hc)]
  rw [if_neg h4]
  dsimp only
  rw [GetService_modify_step_none st id cfg hmiss]
  refine ⟨rfl, ?_, rfl⟩
  rw [restartService_catalog]
  exact hmap

/-- C9 (amended): when no service with the given id exists,
`DeleteService` fails with the wrapped not-found error and changes
nothing, and the second of two consecutive deletes of the same id fails
that way; `ModifyService` with a valid non-empty partial, however,
returns success while changing no catalog row (the GORM update matches
zero rows and reports no error, and the post-update fetch failure is
swallowed). -/
theorem missing_id_mutations (st : ProxyState) (midA id : String) (now : Nat)
    (cfg : ProxyServiceConfig)
    (hmiss : GetService st id = none) :
    DeleteService st midA id now = (Except.error errGetService, st, []) ∧
    (∀ (stA : ProxyState) (midB : String) (nowB : Nat),
       (DeleteService stA midB id nowB).1 = Except.ok () →
       (DeleteService (DeleteService stA midB id nowB).2.1 midA id now).1
           = Except.error errGetService) ∧
    (presentEmpty cfg.name = false → presentEmpty cfg.localHost = false →
     presentBadPort cfg.localPort = false →
     ¬ (cfg.name = none ∧ cfg.localHost = none ∧ cfg.localPort = none
          ∧ cfg.enabled = none) →
     (ModifyService st midA id cfg now).1 = Except.ok () ∧
     (ModifyService st midA id cfg now).2.1.catalog = st.catalog) := by
  refine ⟨?_, ?_, ?_⟩
  · unfold DeleteService
    rw [hmiss]
  · intro stA midB nowB hok
    unfold DeleteService at hok ⊢
    cases hg : GetService stA id with
    | none =>
      rw [hg] at hok
      exact absurd hok (by simp)
    | some s =>
      dsimp only
      have hnone : GetService (syncServiceOperation { stopService stA id with catalog := (stopService stA id).catalog.filter (fun s => !(s.id == id)) } midB opDeleted s nowB).1 id = none := by
        unfold GetService
        rw [syncOp_catalog]
        exact find?_filter_not_id _ id
      rw [hnone]
  · intro h1 h2 h3 h4
    have h := modifyService_missing st midA id cfg now hmiss h1 h2 h3 h4
    exact ⟨h.1, h.2.1⟩

def cfgSetName : ProxyServiceConfig := ⟨some nmSvc, none, none, none⟩

/-- Witness for C9: on an empty catalog, deleting a missing id errors and
changes nothing, while modifying it with a name update succeeds. -/
theorem missing_id_mutations_witness :
    DeleteService stOneCb mid1 idMissing 0 = (Except.error errGetService, stOneCb, []) ∧
    (ModifyService stOneCb mid1 idMissing cfgSetName 0).1 = Except.ok () := by
  have h := missing_id_mutations stOneCb mid1 idMissing 0 cfgSetName rfl
  exact ⟨h.1, (h.2.2 rfl rfl rfl (by simp [cfgSetName])).1⟩

/-- C9 counterexample: `ModifyService` of a missing id with a valid
partial does not fail with NotFound — it returns success. -/
theorem modify_missing_silent_ok_cex :
    GetService stOneCb idMissing = none ∧
    (ModifyService stOneCb mid1 idMissing cfgSetName 0).1 = Except.ok () := by
  decide

theorem syncOp_sent_free (st : ProxyState) (freshId operation : String)
    (service : ProxyService) (now : Nat) (h : st.syncChan = ChanState.free) :
    sentMsgs (syncServiceOperation st freshId operation service now).2
      = [⟨msgTypeServiceSync, freshId, some operation, some service, none⟩] := by
  unfold syncServiceOperation
  rw [h]
  rfl

theorem syncOp_sent_count_free (st : ProxyState) (freshId operation : String)
    (service : ProxyService) (now : Nat) (h : st.syncChan = ChanState.free) :
    (sentMsgs (syncServiceOperation st freshId operation service now).2).length = 1 := by
  rw [syncOp_sent_free st freshId operation service now h]
  rfl

theorem modifyService_existing_attempts (st : ProxyState) (midA id : String)
    (cfg : ProxyServiceConfig) (now : Nat) (s0 : ProxyService)
    (hchan : st.syncChan ≠ ChanState.unset)
    (hsome : GetService st id = some s0)
    (h1 : presentEmpty cfg.name = false) (h2 : presentEmpty cfg.localHost = false)
    (h3 : presentBadPort cfg.localPort = false)
    (h4 : ¬ (cfg.name = none ∧ cfg.localHost = none ∧ cfg.localPort = none
              ∧ cfg.enabled = none)) :
    (ModifyService st midA id cfg now).1 = Except.ok () ∧
    attemptCount (ModifyService st midA id cfg now).2.2 = 1 ∧
    (st.syncChan = ChanState.free →
      (sentMsgs (ModifyService st midA id cfg now).2.2).length = 1) := by
  unfold ModifyService
  rw [if_neg (by rw [h1]; exact fun hc => Bool.noConfusion hc)]
  rw [if_neg (by rw [h2]; exact fun hc => Bool.noConfusion hc)]
  rw [if_neg (by rw [h3]; exact fun hc => Bool.noConfusion hc)]
  rw [if_neg h4]
  dsimp only
  rw [GetService_modify_step st id cfg s0 hsome]
  dsimp only
  have hchan2 : (restartService { st with catalog := st.catalog.map (fun s => if s.id == id then applyConfig cfg s else s) } id).syncChan ≠ ChanState.unset := by
    rw [restartService_syncChan]
    exact hchan
  refine ⟨rfl, ?_, ?_⟩
  · exact syncOp_attemptCount _ _ _ _ _ hchan2
  · intro hfree
    have hfree2 : (restartService { st with catalog := st.catalog.map (fun s => if s.id == id then applyConfig cfg s else s) } id).syncChan = ChanState.free := by
      rw [restartService_syncChan]
      exact hfree
    exact syncOp_sent_count_free _ _ _ _ _ hfree2

/-- C5 (amended): with a sync channel configured, every catalog mutation
that succeeds locally on an existing service — add_service,
delete_service, and modify/enable/disable of an existing id — produces
exactly one enqueue attempt of a service-sync message on the outbound
channel, the message being actually enqueued whenever the channel has
capacity (so a drop can only happen on a full channel); a ModifyService
call whose id does not exist, however, returns success while producing no
enqueue attempt at all. -/
theorem mutation_single_enqueue (st : ProxyState)
    (hchan : st.syncChan ≠ ChanState.unset) :
    (∀ (sysFree : Nat → Bool) (sid midA nm host : String) (port : Int)
        (protocol : String) (now : Nat) (svc : ProxyService),
       (AddService st sysFree sid midA nm host port protocol now).1 = Except.ok svc →
       attemptCount (AddService st sysFree sid midA nm host port protocol now).2.2 = 1 ∧
       (st.syncChan = ChanState.free →
         (sentMsgs (AddService st sysFree sid midA nm host port protocol now).2.2).length = 1)) ∧
    (∀ (midA id : String) (now : Nat),
       (DeleteService st midA id now).1 = Except.ok () →
       attemptCount (DeleteService st midA id now).2.2 = 1 ∧
       (st.syncChan = ChanState.free →
         (sentMsgs (DeleteService st midA id now).2.2).length = 1)) ∧
    (∀ (midA id : String) (cfg : ProxyServiceConfig) (now : Nat) (s0 : ProxyService),
       GetService st id = some s0 →
       (ModifyService st midA id cfg now).1 = Except.ok () →
       attemptCount (ModifyService st midA id cfg now).2.2 = 1) ∧
    (∀ (midA id : String) (now : Nat) (s0 : ProxyService),
       GetService st id = some s0 →
       attemptCount (EnableService st midA id now).2.2 = 1 ∧
       attemptCount (DisableService st midA id now).2.2 = 1) ∧
    (∀ (midA id : String) (cfg : ProxyServiceConfig) (now : Nat),
       GetService st id = none →
       presentEmpty cfg.name = false → presentEmpty cfg.localHost = false →
       presentBadPort cfg.localPort = false →
       ¬ (cfg.name = none ∧ cfg.localHost = none ∧ cfg.localPort = none
            ∧ cfg.enabled = none) →
       (ModifyService st midA id cfg now).1 = Except.ok () ∧
       attemptCount (ModifyService st midA id cfg now).2.2 = 0) := by
  refine ⟨?_, ?_, ?_, ?_, ?_⟩
  · intro sysFree sid midA nm host port protocol now svc hok
    unfold AddService at hok ⊢
    by_cases hp : (!(protocol == protoHTTP) && !(protocol == protoWebsocket)) = true
    · rw [if_pos hp] at hok
      exact absurd hok (by simp)
    · rw [if_neg hp] at hok ⊢
      by_cases hb : port < 1 ∨ port > 65535
      · rw [if_pos hb] at hok
        exact absurd hok (by simp)
      · rw [if_neg hb] at hok ⊢
        by_cases hh : host = ""
        · rw [if_pos hh] at hok
          exact absurd hok (by simp)
        · rw [if_neg hh] at hok ⊢
          by_cases hn : nm = ""
          · rw [if_pos hn] at hok
            exact absurd hok (by simp)
          · rw [if_neg hn] at hok ⊢
            cases halloc : allocatePort st sysFree with
            | error e =>
              rw [halloc] at hok
              exact absurd hok (by simp)
            | ok p =>
              dsimp only
              constructor
              · exact syncOp_attemptCount _ _ _ _ _ (by
                  by_cases hs : ({ st with catalog := st.catalog ++ [(⟨sid, nm, p, host, port, protocol, true⟩ : ProxyService)] } : ProxyState).started = true
                  · rw [if_pos hs]; exact hchan
                  · rw [if_neg hs]; exact hchan)
              · intro hfree
                exact syncOp_sent_count_free _ _ _ _ _ (by
                  by_cases hs : ({ st with catalog := st.catalog ++ [(⟨sid, nm, p, host, port, protocol, true⟩ : ProxyService)] } : ProxyState).started = true
                  · rw [if_pos hs]; exact hfree
                  · rw [if_neg hs]; exact hfree)
  · intro midA id now hok
    unfold DeleteService at hok ⊢
    cases hg : GetService st id with
    | none =>
      rw [hg] at hok
      exact absurd hok (by simp)
    | some s =>
      dsimp only
      constructor
      · exact syncOp_attemptCount _ _ _ _ _ hchan
      · intro hfree
        exact syncOp_sent_count_free _ _ _ _ _ hfree
  · intro midA id cfg now s0 hsome hok
    by_cases h1 : presentEmpty cfg.name = true
    · unfold ModifyService at hok
      rw [if_pos h1] at hok
      exact absurd hok (by simp)
    · by_cases h2 : presentEmpty cfg.localHost = true
      · unfold ModifyService at hok
        rw [if_neg h1, if_pos h2] at hok
        exact absurd hok (by simp)
      · by_cases h3 : presentBadPort cfg.localPort = true
        · unfold ModifyService at hok
          rw [if_neg h1, if_neg h2, if_pos h3] at hok
          exact absurd hok (by simp)
        · by_cases h4 : cfg.name = none ∧ cfg.localHost = none ∧ cfg.localPort = none
              ∧ cfg.enabled = none
          · unfold ModifyService at hok
            rw [if_neg h1, if_neg h2, if_neg h3, if_pos h4] at hok
            exact absurd hok (by simp)
          · exact (modifyService_existing_attempts st midA id cfg now s0 hchan hsome
              (Bool.not_eq_true _ ▸ h1) (Bool.not_eq_true _ ▸ h2)
              (Bool.not_eq_true _ ▸ h3) h4).2.1
  · intro midA id now s0 hsome
    constructor
    · exact (modifyService_existing_attempts st midA id ⟨none, none, none, some true⟩ now s0
        hchan hsome rfl rfl rfl (by simp)).2.1
    · exact (modifyService_existing_attempts st midA id ⟨none, none, none, some false⟩ now s0
        hchan hsome rfl rfl rfl (by simp)).2.1
  · intro midA id cfg now hmiss h1 h2 h3 h4
    have h := modifyService_missing st midA id cfg now hmiss h1 h2 h3 h4
    refine ⟨h.1, ?_⟩
    rw [h.2.2]
    rfl

/-- Witness for C5: deleting the one existing service on a free channel
succeeds and makes exactly one enqueue attempt. -/
theorem mutation_single_enqueue_witness :
    (DeleteService stOneSvc mid1 svcWeb.id 0).1 = Except.ok () ∧
    attemptCount (DeleteService stOneSvc mid1 svcWeb.id 0).2.2 = 1 := by
  have h := (mutation_single_enqueue stOneSvc (by decide)).2.1 mid1 svcWeb.id 0 (by decide)
  exact ⟨by decide, h.1⟩

/-- C5 counterexample: with a configured (free) channel, `ModifyService`
of a missing id returns success yet produces zero enqueue attempts —
refuting "every locally successful mutation produces exactly one enqueue
attempt". -/
theorem modify_missing_no_enqueue_cex :
    stOneCb.syncChan = ChanState.free ∧
    (ModifyService stOneCb mid2 idMissing cfgSetName 1).1 = Except.ok () ∧
    attemptCount (ModifyService stOneCb mid2 idMissing cfgSetName 1).2.2 = 0 := by
  decide
